import Mathlib

/-!
Shallow embedding of the PR workflow scheduler's pure core
(`src/github/github_sync.py`, `src/workflow/tasks.py`,
`src/github/get_open_prs.py`, `src/github/get_open_issues.py`),
together with theorems settling the specification claims about it.

Optional strings model Python `Optional[str]`; Python truthiness of a
string (`if s:`) is `pyTruthy`; Python `a or b` on optional strings is
`pyOr`.  `sorted(..., key=...)` is modelled by `List.insertionSort`,
which is a stable sort exactly like CPython's `sorted`.
-/

namespace GithubSync

/-- Python truthiness of an optional string: `None` and `""` are falsy. -/
def pyTruthy : Option String → Bool
  | none => false
  | some s => !(s == "")

/-- Python `a or b` for optional strings: the first operand when truthy,
otherwise the second operand unchanged. -/
def pyOr (a b : Option String) : Option String :=
  if pyTruthy a then a else b

/-- Lower-cased code point of a character.  The strings compared
case-insensitively in this program are ASCII, for which Python
`str.casefold` agrees with ASCII lower-casing. -/
def lowerCode (c : Char) : Nat :=
  if 65 ≤ c.toNat && c.toNat ≤ 90 then c.toNat + 32 else c.toNat

/-- Embeds `_casefold_eq`: case-insensitive comparison that is false when
either side is `None`. -/
def casefoldEq : Option String → Option String → Bool
  | some a, some b => a.toList.map lowerCode == b.toList.map lowerCode
  | _, _ => false

/-- Embeds the `ItemType` enum. -/
inductive ItemType
  | ISSUE
  | PR
deriving DecidableEq, Repr

/-- Embeds the `Action` enum of `github_sync.py`. -/
inductive Action
  | NONE
  | NEEDS_DEV
  | NEEDS_REVIEW
  | IN_REVIEW
  | NEEDS_FIX
  | NEEDS_CONFLICT_RESOLUTION
  | READY_TO_MERGE
  | MAX_ITERATIONS_REACHED
  | DISPATCHED
deriving DecidableEq, Repr

/-- String value of each `Action` member, as in the Python enum. -/
def actionValue : Action → String
  | .NONE => "none"
  | .NEEDS_DEV => "needs_dev"
  | .NEEDS_REVIEW => "needs_review"
  | .IN_REVIEW => "in_review"
  | .NEEDS_FIX => "needs_fix"
  | .NEEDS_CONFLICT_RESOLUTION => "needs_conflict_resolution"
  | .READY_TO_MERGE => "ready_to_merge"
  | .MAX_ITERATIONS_REACHED => "max_iterations_reached"
  | .DISPATCHED => "dispatched"

/-- Embeds the `Status` enum of `github_sync.py`. -/
inductive Status
  | OPEN
  | IN_PROGRESS
  | PR_CREATED
  | CLOSED
  | PENDING_REVIEW
  | CHANGES_REQUESTED
  | APPROVED
  | MERGED
  | CONFLICTING
deriving DecidableEq, Repr

/-- String value of each `Status` member, as in the Python enum. -/
def statusValue : Status → String
  | .OPEN => "open"
  | .IN_PROGRESS => "in_progress"
  | .PR_CREATED => "pr_created"
  | .CLOSED => "closed"
  | .PENDING_REVIEW => "pending_review"
  | .CHANGES_REQUESTED => "changes_requested"
  | .APPROVED => "approved"
  | .MERGED => "merged"
  | .CONFLICTING => "conflicting"

/-- Embeds the `WorkflowItem` dataclass. -/
structure WorkflowItem where
  id : String
  type : ItemType
  repo : String
  number : Nat
  title : String
  github_state : String
  repo_scoped_id : String
  status : Status
  action : Action
  head_sha : Option String
  head_ref_name : Option String
  last_reviewed_sha : Option String
  reviews : List (String × String)
  all_reviewers_approved : Bool
  any_changes_requested : Bool
  sha_matches_review : Bool
  has_conflicts : Bool
  last_review_dispatch_sha : Option String
  last_fix_dispatch_sha : Option String
  last_merge_dispatch_sha : Option String
  last_conflict_dispatch_sha : Option String
  last_head_sha_seen : Option String
  iteration : Nat
  max_iterations : Nat
  assigned_agent : Option String
  lock_expires : Option String
  created_at : String
  updated_at : String
  last_sync : String
deriving DecidableEq, Repr

/-- An observed review, with the defaults `evaluate_reviews` applies when a
field is missing: `author.login` defaults to `""`, `state` to `"COMMENTED"`,
`commit.oid` to `""`, `submittedAt` to `""`. -/
structure Review where
  author : String
  state : String
  commitOid : String
  submittedAt : String
deriving DecidableEq, Repr

/-- Embeds the optional `approval_rules` dict consumed by
`evaluate_reviews`: keys `min_approvals`, `required_reviewers`,
`veto_powers`. -/
structure ApprovalRules where
  minApprovals : Option Int
  requiredReviewers : List String
  vetoPowers : List String
deriving DecidableEq, Repr

/-- Embeds the `ReviewEvaluation` dataclass.  The Python dict
`latest_decision_by_reviewer` is modelled as an insertion-ordered
association list; only lookups are ever performed on it. -/
structure ReviewEvaluation where
  all_required_approved : Bool
  any_changes_requested : Bool
  latest_review_sha : Option String
  latest_decision_by_reviewer : List (String × String)
deriving DecidableEq, Repr

/-- Dict assignment `d[k] = v` on an insertion-ordered association list:
overwrite in place when the key is present, append otherwise. -/
def setDecision : List (String × String) → String → String → List (String × String)
  | [], k, v => [(k, v)]
  | (k', v') :: rest, k, v =>
      if k' = k then (k', v) :: rest else (k', v') :: setDecision rest k v

/-- Running state of the review loop of `evaluate_reviews`:
`latest_decision` and `latest_review_sha`. -/
structure EvalState where
  latestDecision : List (String × String)
  latestReviewSha : Option String
deriving DecidableEq, Repr

/-- One iteration of the review loop of `evaluate_reviews`: comment
reviews are skipped; a review by a required reviewer overwrites that
reviewer's latest decision and, when its commit oid is truthy, the latest
review sha. -/
def reviewStep (required : List String) (s : EvalState) (r : Review) : EvalState :=
  if casefoldEq (some r.state) (some "COMMENTED") then s
  else if r.author ∈ required then
    { latestDecision := setDecision s.latestDecision r.author r.state
      latestReviewSha := if r.commitOid = "" then s.latestReviewSha else some r.commitOid }
  else s

/-- Code-point lexicographic comparison of character lists, the order
Python uses to compare strings. -/
def charListLe : List Char → List Char → Bool
  | [], _ => true
  | _ :: _, [] => false
  | c :: cs, d :: ds =>
      if c.toNat < d.toNat then true
      else if d.toNat < c.toNat then false
      else charListLe cs ds

/-- Python string comparison `a <= b` (code-point lexicographic). -/
def strLe (a b : String) : Bool := charListLe a.toList b.toList

/-- Strict Python string comparison `a < b`. -/
def strLt (a b : String) : Bool := strLe a b && !(strLe b a)

/-- Embeds `sorted(reviews, key=lambda r: r.get("submittedAt", ""))`:
a stable sort by `submittedAt` ascending.  `List.insertionSort` is stable,
exactly like CPython's `sorted`, so it yields the same list. -/
def sortReviews (reviews : List Review) : List Review :=
  reviews.insertionSort (fun r1 r2 => strLe r1.submittedAt r2.submittedAt = true)

/-- State of `latest_decision` / `latest_review_sha` after the loop of
`evaluate_reviews` has processed the time-sorted review list. -/
def reviewEvalState (reviews : List Review) (required : List String) : EvalState :=
  (sortReviews reviews).foldl (reviewStep required) ⟨[], none⟩

/-- Embeds `evaluate_reviews(reviews, required_reviewers, approval_rules)`. -/
def evaluate_reviews (reviews : List Review) (required : List String)
    (rules : Option ApprovalRules) : ReviewEvaluation :=
  let st := reviewEvalState reviews required
  let latest := st.latestDecision
  let legacy := required.all fun r => casefoldEq (latest.lookup r) (some "APPROVED")
  let allApproved :=
    match rules with
    | some ar =>
        match ar.minApprovals with
        | some m =>
            let approvalCount :=
              required.countP fun r => casefoldEq (latest.lookup r) (some "APPROVED")
            let specificOk := ar.requiredReviewers.all fun r =>
              casefoldEq (latest.lookup r) (some "APPROVED")
            let vetoBlocked := ar.vetoPowers.any fun r =>
              casefoldEq (latest.lookup r) (some "CHANGES_REQUESTED")
            decide ((approvalCount : Int) ≥ m) && specificOk && !vetoBlocked
        | none => legacy
    | none => legacy
  let anyChanges := required.any fun r =>
    casefoldEq (latest.lookup r) (some "CHANGES_REQUESTED")
  { all_required_approved := allApproved
    any_changes_requested := anyChanges
    latest_review_sha := st.latestReviewSha
    latest_decision_by_reviewer := latest }

/-- Observed PR detail, the fields `determine_pr_action` reads from the
`pr_detail` dict (each via `.get`, hence optional). -/
structure PrDetail where
  state : Option String
  headRefOid : Option String
  mergeable : Option String
  mergeStateStatus : Option String
  reviews : List Review
deriving DecidableEq, Repr

/-- Result tuple of `determine_pr_action`:
`(status, action, all_approved, any_changes_requested, latest_decisions,
last_reviewed_sha)`. -/
structure PrActionResult where
  status : Status
  action : Action
  all_approved : Bool
  any_changes_requested : Bool
  latest_decisions : List (String × String)
  last_reviewed_sha : Option String
deriving DecidableEq, Repr

/-- The prior item's `last_reviewed_sha` (`None` when there is no prior
item), as read at the top of `determine_pr_action`. -/
def priorLastReviewedSha : Option WorkflowItem → Option String
  | some e => e.last_reviewed_sha
  | none => none

/-- Embeds `has_conflicts`: `mergeable = CONFLICTING ∨ merge_state = DIRTY`,
case-insensitively (`github_sync.py` line 432). -/
def hasConflicts (mergeable mergeStateStatus : Option String) : Bool :=
  casefoldEq mergeable (some "CONFLICTING") || casefoldEq mergeStateStatus (some "DIRTY")

/-- Embeds the `last_reviewed_sha` assignment block of `determine_pr_action`
(lines 436-440), including the Python `or`-chain fallback. -/
def resolveLastReviewedSha (ev : ReviewEvaluation) (head_sha prior : Option String) :
    Option String :=
  if ev.all_required_approved && (ev.latest_review_sha == head_sha) then head_sha
  else if ev.any_changes_requested || ev.all_required_approved then
    pyOr ev.latest_review_sha (pyOr prior head_sha)
  else prior

/-- Embeds `head_sha == last_reviewed_sha if last_reviewed_sha else False`,
used both inside `determine_pr_action` (line 442) and for the
`sha_matches_review` field written by `sync_repo` (line 836). -/
def sha_matches_review (head_sha last_reviewed_sha : Option String) : Bool :=
  if pyTruthy last_reviewed_sha then head_sha == last_reviewed_sha else false

/-- Embeds `determine_pr_action(pr_detail, existing, required_reviewers,
approval_rules)`: the SHA-gated PR state machine (lines 404-480). -/
def determine_pr_action (pr_detail : PrDetail) (existing : Option WorkflowItem)
    (required_reviewers : List String) (approval_rules : Option ApprovalRules) :
    PrActionResult :=
  let head_sha := pr_detail.headRefOid
  let ev := evaluate_reviews pr_detail.reviews required_reviewers approval_rules
  let conflicts := hasConflicts pr_detail.mergeable pr_detail.mergeStateStatus
  let last_reviewed_sha :=
    resolveLastReviewedSha ev head_sha (priorLastReviewedSha existing)
  let sha_matches := sha_matches_review head_sha last_reviewed_sha
  if casefoldEq pr_detail.state (some "MERGED") then
    ⟨.MERGED, .NONE, ev.all_required_approved, ev.any_changes_requested,
      ev.latest_decision_by_reviewer, last_reviewed_sha⟩
  else if conflicts then
    if ev.all_required_approved then
      ⟨.CONFLICTING, .NEEDS_CONFLICT_RESOLUTION, ev.all_required_approved,
        ev.any_changes_requested, ev.latest_decision_by_reviewer, last_reviewed_sha⟩
    else
      ⟨.CONFLICTING, .NONE, ev.all_required_approved, ev.any_changes_requested,
        ev.latest_decision_by_reviewer, last_reviewed_sha⟩
  else if ev.all_required_approved then
    if sha_matches then
      ⟨.APPROVED, .READY_TO_MERGE, true, ev.any_changes_requested,
        ev.latest_decision_by_reviewer, last_reviewed_sha⟩
    else
      ⟨.PENDING_REVIEW, .NEEDS_REVIEW, true, ev.any_changes_requested,
        ev.latest_decision_by_reviewer, last_reviewed_sha⟩
  else if ev.any_changes_requested then
    if sha_matches then
      ⟨.CHANGES_REQUESTED, .NEEDS_FIX, false, true,
        ev.latest_decision_by_reviewer, last_reviewed_sha⟩
    else
      ⟨.PENDING_REVIEW, .NEEDS_REVIEW, false, true,
        ev.latest_decision_by_reviewer, last_reviewed_sha⟩
  else
    ⟨.PENDING_REVIEW, .NEEDS_REVIEW, false, false,
      ev.latest_decision_by_reviewer, last_reviewed_sha⟩

/-- Embeds `apply_dispatch_dedupe` (lines 357-379): return `NONE` when the
computed action was already dispatched for the current head sha.  The
source tracks markers for exactly four action kinds: review, fix, merge
and conflict. -/
def apply_dispatch_dedupe (action : Action) (head_sha : Option String)
    (last_review_dispatch_sha last_fix_dispatch_sha last_merge_dispatch_sha
      last_conflict_dispatch_sha : Option String) : Action :=
  if action = .NEEDS_REVIEW ∧ pyTruthy head_sha ∧ head_sha == last_review_dispatch_sha then
    .NONE
  else if action = .NEEDS_FIX ∧ pyTruthy head_sha ∧ head_sha == last_fix_dispatch_sha then
    .NONE
  else if action = .READY_TO_MERGE ∧ pyTruthy head_sha ∧ head_sha == last_merge_dispatch_sha then
    .NONE
  else if action = .NEEDS_CONFLICT_RESOLUTION ∧ pyTruthy head_sha ∧
      head_sha == last_conflict_dispatch_sha then
    .NONE
  else action

/-- Embeds `update_iteration(existing, action, max_iterations)` (lines
382-401): enforce the iteration cap only; the counter itself is not
incremented here. -/
def update_iteration (existing : Option WorkflowItem) (action : Action)
    (max_iterations : Nat) : Nat × Action :=
  let iteration := match existing with
    | some e => e.iteration
    | none => 0
  if action ≠ .NEEDS_FIX then (iteration, action)
  else if iteration ≥ max_iterations then (iteration, .MAX_ITERATIONS_REACHED)
  else (iteration, action)

/-- Embeds the row update of `mark_dispatched(item_id, dispatch_type,
head_sha)` (lines 666-702) on the addressed row: sets the marker column of
the dispatch type, and for `"fix"` additionally increments `iteration` in
the same statement; `last_sync` is set to the current time `now`. -/
def mark_dispatched (item : WorkflowItem) (dispatch_type : String)
    (head_sha : String) (now : String) : WorkflowItem :=
  if dispatch_type = "review" then
    { item with last_review_dispatch_sha := some head_sha, last_sync := now }
  else if dispatch_type = "fix" then
    { item with last_fix_dispatch_sha := some head_sha,
                iteration := item.iteration + 1, last_sync := now }
  else if dispatch_type = "merge" then
    { item with last_merge_dispatch_sha := some head_sha, last_sync := now }
  else if dispatch_type = "conflict" then
    { item with last_conflict_dispatch_sha := some head_sha, last_sync := now }
  else item

/-!  Queue projections (`get_open_prs.py`, `get_open_issues.py`): the
eligible-item lists and the sort applied to them before the limit cut. -/

/-- A selected PR queue item, with the fields that matter for ordering:
`_sortUpdated` (the row's `updated_at`), `_sortPriority` (the composite
`base_priority + repo_priority`) and `itemId` (`"{repo}#pr#{number}"`). -/
structure PrQueueItem where
  itemId : String
  repo : String
  prNumber : Nat
  title : String
  headSha : String
  sortUpdated : String
  sortPriority : Int
deriving DecidableEq, Repr

/-- Python `<=` on an `(int, str)` tuple, lexicographic. -/
def intStrLe (a b : Int × String) : Bool :=
  if a.1 = b.1 then strLe a.2 b.2 else decide (a.1 ≤ b.1)

/-- Python `<=` on a `(str, int, str)` tuple, lexicographic. -/
def strIntStrLe (a b : String × Int × String) : Bool :=
  if a.1 = b.1 then intStrLe a.2 b.2 else strLe a.1 b.1

/-- Sort key of the PR queues (`get_open_prs.py`, `run` line 406 and
`_execute` line 640): `(str(_sortUpdated), -_sortPriority, str(itemId))`. -/
def prQueueKey (x : PrQueueItem) : String × Int × String :=
  (x.sortUpdated, -x.sortPriority, x.itemId)

/-- Sort relation of the PR queues: ascending comparison of `prQueueKey`. -/
def prQueueRel (x y : PrQueueItem) : Prop :=
  strIntStrLe (prQueueKey x) (prQueueKey y) = true

instance : DecidableRel prQueueRel :=
  fun x y => inferInstanceAs (Decidable (_ = true))

/-- Embeds `selected.sort(key=...)` of the PR queue (a stable sort, like
every CPython sort). -/
def sortPrQueue (l : List PrQueueItem) : List PrQueueItem :=
  l.insertionSort prQueueRel

/-- A selected issue queue item.  The emitted dict carries `itemId` and the
composite `priority` (`base_priority + rule.priority`); `updatedAt` is the
underlying row's `updated_at` column, which the spec's ordering sentence
refers to. -/
structure IssueQueueItem where
  itemId : String
  repo : String
  issueNumber : Nat
  title : String
  priority : Int
  updatedAt : String
deriving DecidableEq, Repr

/-- Sort key of the issue queue (`get_open_issues._execute` line 415):
`(-priority, str(itemId))`.  No `updated_at` component. -/
def issueQueueKey (x : IssueQueueItem) : Int × String :=
  (-x.priority, x.itemId)

/-- Sort relation of the issue queue: ascending comparison of
`issueQueueKey`. -/
def issueQueueRel (x y : IssueQueueItem) : Prop :=
  intStrLe (issueQueueKey x) (issueQueueKey y) = true

instance : DecidableRel issueQueueRel :=
  fun x y => inferInstanceAs (Decidable (_ = true))

/-- Embeds `selected.sort(key=lambda x: (-priority, itemId))` of the issue
queue. -/
def sortIssueQueue (l : List IssueQueueItem) : List IssueQueueItem :=
  l.insertionSort issueQueueRel

/-- Modelled from the spec: the ordering the spec claims for every queue
projection — `updated_at` ascending, then composite priority descending,
then id ascending — applied to issue queue items, for comparison with
`sortIssueQueue`. -/
def issueQueueSpecRel (x y : IssueQueueItem) : Prop :=
  strIntStrLe (x.updatedAt, -x.priority, x.itemId) (y.updatedAt, -y.priority, y.itemId) = true

instance : DecidableRel issueQueueSpecRel :=
  fun x y => inferInstanceAs (Decidable (_ = true))

/-- Modelled from the spec: stable sort of issue queue items by the
spec-claimed ordering. -/
def sortIssueQueueSpec (l : List IssueQueueItem) : List IssueQueueItem :=
  l.insertionSort issueQueueSpecRel

/-!  Scheduler pass (`workflow/tasks.py`).  The external effects of one
queue drain are modelled as a trace: agent spawns and `mark_dispatched`
store updates. -/

/-- A PR as returned in the `prs` list of a queue response, with the
fields `review_open_prs` reads. -/
structure QueuePr where
  prNumber : Nat
  repo : String
  title : String
  headRefName : String
  headSha : String
deriving DecidableEq, Repr

/-- One reviewer entry as returned by `get_reviewers(repo)`: the `agent`
id and the optional `enabled` flag (`none` when the key is absent). -/
structure ReviewerCfg where
  agent : String
  enabled : Option Bool
deriving DecidableEq, Repr

/-- An externally visible effect of a scheduler pass: an agent spawn
(`spawn_agent(label, prompt, agent_id)`) or a dispatch-marker write
(`mark_dispatched(item_id, dispatch_type, head_sha)`). -/
inductive DispatchEffect
  | spawnAgent (label : String) (agent : String)
  | markCall (itemId : String) (dispatchType : String) (headSha : String)
deriving DecidableEq, Repr

/-- True exactly for `mark_dispatched` effects. -/
def DispatchEffect.isMarkCall : DispatchEffect → Bool
  | .markCall _ _ _ => true
  | _ => false

/-- A review is relevant to `evaluate_reviews` when it is not a comment and
its author is a required reviewer; all other reviews leave the loop state
unchanged. -/
def relevantReview (required : List String) (r : Review) : Bool :=
  !casefoldEq (some r.state) (some "COMMENTED") && decide (r.author ∈ required)

/-- Reviews that set the decision of reviewer `a`: authored by `a` and not
a comment. -/
def decisiveBy (a : String) (r : Review) : Bool :=
  r.author == a && !casefoldEq (some r.state) (some "COMMENTED")

/-- Embeds the effect trace of `review_open_prs` (`tasks.py` lines 26-44):
for every PR of the `needs_review` queue response and every enabled
reviewer of its repo, spawn a review agent labelled `"{repo}#{pr_number}"`.
The loop body contains no other store or spawn call. -/
def review_open_prs (prs : List QueuePr) (reviewersOf : String → List ReviewerCfg) :
    List DispatchEffect :=
  prs.flatMap fun pr =>
    (reviewersOf pr.repo).filterMap fun reviewer =>
      if reviewer.enabled = some false then none
      else some (.spawnAgent (pr.repo ++ "#" ++ toString pr.prNumber) reviewer.agent)

/-!  Order-theoretic facts about the string comparison and the stable
sort, shared by the claim proofs below. -/

theorem charListLe_total : ∀ a b : List Char, charListLe a b = true ∨ charListLe b a = true
  | [], _ => Or.inl rfl
  | _ :: _, [] => Or.inr rfl
  | c :: cs, d :: ds => by
      rcases Nat.lt_trichotomy c.toNat d.toNat with h | h | h
      · left; simp [charListLe, h]
      · rcases charListLe_total cs ds with ih | ih
        · left; simp [charListLe, h, ih]
        · right; simp [charListLe, h.symm, ih]
      · right; simp [charListLe, h]

theorem charListLe_trans : ∀ a b c : List Char,
    charListLe a b = true → charListLe b c = true → charListLe a c = true
  | [], _, _, _, _ => rfl
  | _ :: _, [], _, h1, _ => by simp [charListLe] at h1
  | _ :: _, _ :: _, [], _, h2 => by simp [charListLe] at h2
  | x :: xs, y :: ys, z :: zs, h1, h2 => by
      simp only [charListLe] at h1 h2 ⊢
      split_ifs at h1 h2 ⊢ <;> first
        | rfl
        | omega
        | (exact charListLe_trans xs ys zs h1 h2)

theorem charListLe_antisymm : ∀ a b : List Char,
    charListLe a b = true → charListLe b a = true → a = b
  | [], [], _, _ => rfl
  | [], _ :: _, _, h2 => by simp [charListLe] at h2
  | _ :: _, [], h1, _ => by simp [charListLe] at h1
  | x :: xs, y :: ys, h1, h2 => by
      simp only [charListLe] at h1 h2
      split_ifs at h1 h2 with hxy hyx <;> try omega
      have hn : x.toNat = y.toNat := by omega
      have hx : x = y := Char.eq_of_val_eq (UInt32.ext hn)
      have := charListLe_antisymm xs ys h1 h2
      simp [hx, this]

theorem strLe_total (a b : String) : strLe a b = true ∨ strLe b a = true :=
  charListLe_total a.toList b.toList

theorem strLe_trans {a b c : String} (h1 : strLe a b = true) (h2 : strLe b c = true) :
    strLe a c = true :=
  charListLe_trans a.toList b.toList c.toList h1 h2

theorem strLe_antisymm {a b : String} (h1 : strLe a b = true) (h2 : strLe b a = true) :
    a = b :=
  String.toList_inj.mp (charListLe_antisymm a.toList b.toList h1 h2)

theorem strLe_refl (a : String) : strLe a a = true :=
  (strLe_total a a).elim id id

section SortLemmas

variable {α : Type} (r : α → α → Prop) [DecidableRel r]

theorem orderedInsert_eq_cons (a : α) (l : List α) (h : ∀ x ∈ l, r a x) :
    l.orderedInsert r a = a :: l := by
  cases l with
  | nil => rfl
  | cons b t => simp [List.orderedInsert, h b (List.mem_cons_self b t)]

theorem filter_orderedInsert_neg (p : α → Bool) (a : α) (l : List α) (hp : p a = false) :
    (l.orderedInsert r a).filter p = l.filter p := by
  induction l with
  | nil => simp [hp]
  | cons b t ih =>
      by_cases hab : r a b
      · simp [List.orderedInsert, hab, hp]
      · by_cases hb : p b
        · simp [List.orderedInsert, hab, hb, ih]
        · simp [List.orderedInsert, hab, hb, ih]

theorem filter_orderedInsert_pos [IsTrans α r] (p : α → Bool) (a : α) (l : List α)
    (hp : p a = true) (hs : l.Sorted r) :
    (l.orderedInsert r a).filter p = (l.filter p).orderedInsert r a := by
  induction l with
  | nil => simp [hp]
  | cons b t ih =>
      by_cases hab : r a b
      · have hall : ∀ x ∈ (b :: t).filter p, r a x := by
          intro x hx
          have hx' := List.mem_of_mem_filter hx
          rcases List.mem_cons.mp hx' with h | h
          · exact h ▸ hab
          · exact IsTrans.trans _ _ _ hab (List.rel_of_sorted_cons hs x h)
        rw [orderedInsert_eq_cons r a ((b :: t).filter p) hall]
        simp [List.orderedInsert, hab, hp]
      · by_cases hb : p b
        · simp [List.orderedInsert, hab, hb, ih hs.of_cons]
        · simp [List.orderedInsert, hab, hb, ih hs.of_cons]

theorem filter_insertionSort [IsTotal α r] [IsTrans α r] (p : α → Bool) (l : List α) :
    (l.insertionSort r).filter p = (l.filter p).insertionSort r := by
  induction l with
  | nil => rfl
  | cons a t ih =>
      by_cases hpa : p a
      · rw [List.insertionSort,
          filter_orderedInsert_pos r p a (t.insertionSort r) hpa
            (List.sorted_insertionSort r t), ih]
        simp [hpa]
      · rw [List.insertionSort,
          filter_orderedInsert_neg r p a (t.insertionSort r) (by simpa using hpa), ih]
        simp [hpa]

end SortLemmas

theorem intStrLe_total (a b : Int × String) : intStrLe a b = true ∨ intStrLe b a = true := by
  unfold intStrLe
  rcases eq_or_ne a.1 b.1 with h | h
  · simpa [h] using strLe_total a.2 b.2
  · rcases le_or_lt a.1 b.1 with h' | h'
    · left; simp [h, h']
    · right; simp [h.symm, le_of_lt h']

theorem intStrLe_trans {a b c : Int × String}
    (h1 : intStrLe a b = true) (h2 : intStrLe b c = true) : intStrLe a c = true := by
  unfold intStrLe at h1 h2 ⊢
  rcases eq_or_ne a.1 b.1 with hab | hab <;> rcases eq_or_ne b.1 c.1 with hbc | hbc
  · rw [if_pos hab] at h1
    rw [if_pos hbc] at h2
    rw [if_pos (hab.trans hbc)]
    exact strLe_trans h1 h2
  · rw [if_pos hab] at h1
    rw [if_neg hbc] at h2
    rw [if_neg (hab ▸ hbc), hab]
    exact h2
  · rw [if_neg hab] at h1
    rw [if_pos hbc] at h2
    rw [if_neg (hbc ▸ hab), ← hbc]
    exact h1
  · simp only [if_neg hab, decide_eq_true_eq] at h1
    simp only [if_neg hbc, decide_eq_true_eq] at h2
    have hac : a.1 ≠ c.1 := by
      intro h
      exact hab (le_antisymm h1 (h ▸ h2))
    simp [hac, le_trans h1 h2]

theorem strIntStrLe_total (a b : String × Int × String) :
    strIntStrLe a b = true ∨ strIntStrLe b a = true := by
  unfold strIntStrLe
  rcases eq_or_ne a.1 b.1 with h | h
  · simpa [h] using intStrLe_total a.2 b.2
  · rcases strLe_total a.1 b.1 with h' | h'
    · left; simp [h, h']
    · right; simp [h.symm, h']

theorem strIntStrLe_trans {a b c : String × Int × String}
    (h1 : strIntStrLe a b = true) (h2 : strIntStrLe b c = true) : strIntStrLe a c = true := by
  unfold strIntStrLe at h1 h2 ⊢
  rcases eq_or_ne a.1 b.1 with hab | hab <;> rcases eq_or_ne b.1 c.1 with hbc | hbc
  · rw [if_pos hab] at h1
    rw [if_pos hbc] at h2
    rw [if_pos (hab.trans hbc)]
    exact intStrLe_trans h1 h2
  · rw [if_pos hab] at h1
    rw [if_neg hbc] at h2
    rw [if_neg (hab ▸ hbc), hab]
    exact h2
  · rw [if_neg hab] at h1
    rw [if_pos hbc] at h2
    rw [if_neg (hbc ▸ hab), ← hbc]
    exact h1
  · simp only [if_neg hab] at h1
    simp only [if_neg hbc] at h2
    have hac : a.1 ≠ c.1 := by
      intro h
      exact hab (strLe_antisymm h1 (h ▸ h2))
    simp [hac, strLe_trans h1 h2]

instance : IsTotal Review (fun r1 r2 => strLe r1.submittedAt r2.submittedAt = true) :=
  ⟨fun a b => strLe_total a.submittedAt b.submittedAt⟩

instance : IsTrans Review (fun r1 r2 => strLe r1.submittedAt r2.submittedAt = true) :=
  ⟨fun _ _ _ h1 h2 => strLe_trans h1 h2⟩

/-- Strict time order on reviews, used to identify the sorted review lists
of two permuted inputs when all timestamps are distinct. -/
def reviewTimeLt (r1 r2 : Review) : Prop :=
  strLt r1.submittedAt r2.submittedAt = true

instance : IsAntisymm Review reviewTimeLt :=
  ⟨fun a b h1 h2 => by
    unfold reviewTimeLt strLt at h1 h2
    simp only [Bool.and_eq_true, Bool.not_eq_true'] at h1 h2
    exact absurd h1.1 (by simp [h2.2])⟩

instance : IsTotal PrQueueItem prQueueRel :=
  ⟨fun a b => strIntStrLe_total (prQueueKey a) (prQueueKey b)⟩

instance : IsTrans PrQueueItem prQueueRel :=
  ⟨fun _ _ _ h1 h2 => strIntStrLe_trans h1 h2⟩

instance : IsTotal IssueQueueItem issueQueueRel :=
  ⟨fun a b => intStrLe_total (issueQueueKey a) (issueQueueKey b)⟩

instance : IsTrans IssueQueueItem issueQueueRel :=
  ⟨fun _ _ _ h1 h2 => intStrLe_trans h1 h2⟩

theorem lookup_setDecision_self (m : List (String × String)) (k v : String) :
    (setDecision m k v).lookup k = some v := by
  induction m with
  | nil => simp [setDecision, List.lookup]
  | cons p rest ih =>
      by_cases h : p.1 = k
      · simp [setDecision, h, List.lookup]
      · simp only [setDecision, if_neg h]
        simpa [List.lookup, show (k == p.1) = false by simpa using fun e => h e.symm] using ih

theorem lookup_setDecision_ne (m : List (String × String)) (k v k' : String) (h : k' ≠ k) :
    (setDecision m k v).lookup k' = m.lookup k' := by
  induction m with
  | nil => simp [setDecision, List.lookup, show (k' == k) = false by simpa using h]
  | cons p rest ih =>
      by_cases hp : p.1 = k
      · subst hp
        simp [setDecision, List.lookup, show (k' == p.1) = false by simpa using h]
      · simp only [setDecision, if_neg hp]
        by_cases hk' : k' = p.1
        · simp [List.lookup, hk']
        · simpa [List.lookup, show (k' == p.1) = false by simpa using hk'] using ih

theorem reviewStep_skip (required : List String) (s : EvalState) (r : Review)
    (h : relevantReview required r = false) : reviewStep required s r = s := by
  unfold relevantReview at h
  unfold reviewStep
  by_cases hc : casefoldEq (some r.state) (some "COMMENTED")
  · simp [hc]
  · have hc' : casefoldEq (some r.state) (some "COMMENTED") = false := by simpa using hc
    simp only [hc', Bool.not_false, Bool.true_and, decide_eq_false_iff_not] at h
    simp [hc', h]

theorem foldl_reviewStep_filter (required : List String) :
    ∀ (l : List Review) (s : EvalState),
      l.foldl (reviewStep required) s = (l.filter (relevantReview required)).foldl (reviewStep required) s
  | [], _ => rfl
  | r :: t, s => by
      by_cases h : relevantReview required r
      · simp only [List.foldl_cons, List.filter_cons, h, if_true]
        exact foldl_reviewStep_filter required t (reviewStep required s r)
      · have h' : relevantReview required r = false := by simpa using h
        simp only [List.foldl_cons, List.filter_cons, h', reviewStep_skip required s r h']
        exact foldl_reviewStep_filter required t s

theorem reviewEvalState_filter (required : List String) (l : List Review) :
    reviewEvalState l required
      = ((l.filter (relevantReview required)).insertionSort
          (fun r1 r2 => strLe r1.submittedAt r2.submittedAt = true)).foldl
          (reviewStep required) ⟨[], none⟩ := by
  unfold reviewEvalState sortReviews
  rw [foldl_reviewStep_filter, filter_insertionSort]

theorem reviewEvalState_insert_irrelevant (l1 l2 : List Review) (r : Review)
    (required : List String) (h : r.author ∉ required) :
    reviewEvalState (l1 ++ r :: l2) required = reviewEvalState (l1 ++ l2) required := by
  have hr : relevantReview required r = false := by
    simp [relevantReview, h]
  have hf : (l1 ++ r :: l2).filter (relevantReview required)
      = (l1 ++ l2).filter (relevantReview required) := by
    simp [List.filter_append, List.filter_cons, hr]
  rw [reviewEvalState_filter, reviewEvalState_filter, hf]

theorem evaluate_reviews_insert_irrelevant (l1 l2 : List Review) (r : Review)
    (required : List String) (rules : Option ApprovalRules) (h : r.author ∉ required) :
    evaluate_reviews (l1 ++ r :: l2) required rules = evaluate_reviews (l1 ++ l2) required rules := by
  unfold evaluate_reviews
  rw [reviewEvalState_insert_irrelevant l1 l2 r required h]

theorem pairwise_reviewTimeLt_of_sorted_nodup (l : List Review)
    (hs : l.Pairwise (fun r1 r2 => strLe r1.submittedAt r2.submittedAt = true))
    (hnd : (l.map Review.submittedAt).Nodup) : l.Pairwise reviewTimeLt := by
  have hne : l.Pairwise (fun a b => a.submittedAt ≠ b.submittedAt) := List.pairwise_map.mp hnd
  refine (hs.and hne).imp ?_
  rintro a b ⟨hle, hneq⟩
  unfold reviewTimeLt strLt
  have hba : strLe b.submittedAt a.submittedAt = false := by
    by_contra hcon
    have hba' : strLe b.submittedAt a.submittedAt = true := by
      simpa using hcon
    exact hneq (strLe_antisymm hle hba')
  simp [hle, hba]

theorem sortReviews_eq_of_perm (l1 l2 : List Review) (hp : l1.Perm l2)
    (hnd : (l1.map Review.submittedAt).Nodup) : sortReviews l1 = sortReviews l2 := by
  have hp1 : (sortReviews l1).Perm l1 := List.perm_insertionSort _ l1
  have hp2 : (sortReviews l2).Perm l2 := List.perm_insertionSort _ l2
  have hperm : (sortReviews l1).Perm (sortReviews l2) := (hp1.trans hp).trans hp2.symm
  have hnd1 : ((sortReviews l1).map Review.submittedAt).Nodup :=
    ((hp1.map Review.submittedAt).nodup_iff).mpr hnd
  have hnd2 : ((sortReviews l2).map Review.submittedAt).Nodup :=
    ((hperm.map Review.submittedAt).nodup_iff).mp hnd1
  have hs1 : (sortReviews l1).Pairwise reviewTimeLt :=
    pairwise_reviewTimeLt_of_sorted_nodup _ (List.sorted_insertionSort _ l1) hnd1
  have hs2 : (sortReviews l2).Pairwise reviewTimeLt :=
    pairwise_reviewTimeLt_of_sorted_nodup _ (List.sorted_insertionSort _ l2) hnd2
  exact List.eq_of_perm_of_sorted hperm hs1 hs2

theorem evaluate_reviews_perm_of_nodup_times (l1 l2 : List Review)
    (required : List String) (rules : Option ApprovalRules) (hp : l1.Perm l2)
    (hnd : (l1.map Review.submittedAt).Nodup) :
    evaluate_reviews l1 required rules = evaluate_reviews l2 required rules := by
  unfold evaluate_reviews reviewEvalState
  rw [sortReviews_eq_of_perm l1 l2 hp hnd]

theorem lookup_foldl_reviewStep (required : List String) (a : String) (ha : a ∈ required) :
    ∀ (l : List Review) (s : EvalState),
      ((l.foldl (reviewStep required) s).latestDecision).lookup a =
        (l.filter (decisiveBy a)).foldl (fun _ r => some r.state) (s.latestDecision.lookup a)
  | [], _ => rfl
  | r :: t, s => by
      by_cases hd : decisiveBy a r
      · have hauthor : r.author = a := by
          have := (Bool.and_eq_true _ _).mp hd
          simpa using this.1
        have hcomment : casefoldEq (some r.state) (some "COMMENTED") = false := by
          have := (Bool.and_eq_true _ _).mp hd
          simpa using this.2
        have hstep : ((reviewStep required s r).latestDecision).lookup a = some r.state := by
          unfold reviewStep
          simp [hcomment, hauthor, ha, lookup_setDecision_self]
        simp only [List.foldl_cons]
        rw [lookup_foldl_reviewStep required a ha t (reviewStep required s r), hstep]
        simp [List.filter_cons, hd]
      · have hd' : decisiveBy a r = false := by simpa using hd
        have hstep : ((reviewStep required s r).latestDecision).lookup a
            = s.latestDecision.lookup a := by
          unfold reviewStep
          by_cases hc : casefoldEq (some r.state) (some "COMMENTED")
          · simp [hc]
          · have hc' : casefoldEq (some r.state) (some "COMMENTED") = false := by
              simpa using hc
            have hne : a ≠ r.author := by
              unfold decisiveBy at hd'
              simp only [hc', Bool.not_false, Bool.and_true, beq_eq_false_iff_ne] at hd'
              exact fun e => hd' e.symm
            by_cases hm : r.author ∈ required
            · simp [hc', hm, lookup_setDecision_ne _ _ _ _ hne]
            · simp [hc', hm]
        simp only [List.foldl_cons]
        rw [lookup_foldl_reviewStep required a ha t (reviewStep required s r), hstep]
        simp [List.filter_cons, hd']

theorem foldl_overwrite_getLast (l : List Review) (init : Option String) :
    l.foldl (fun _ r => some r.state) init
      = (l.getLast?).elim init (fun r => some r.state) := by
  induction l using List.reverseRecOn with
  | nil => rfl
  | append_singleton t x _ => simp [List.foldl_append]

/-- For a required reviewer `a`, the decision recorded by
`evaluate_reviews` is the state of the last review by `a` that is not a
comment, in submission-time order. -/
theorem evaluate_reviews_latest_wins (l : List Review) (required : List String)
    (rules : Option ApprovalRules) (a : String) (ha : a ∈ required) :
    ((evaluate_reviews l required rules).latest_decision_by_reviewer).lookup a
      = (((sortReviews l).filter (decisiveBy a)).getLast?).elim none (fun r => some r.state) := by
  unfold evaluate_reviews reviewEvalState
  rw [lookup_foldl_reviewStep required a ha (sortReviews l) ⟨[], none⟩,
    foldl_overwrite_getLast]
  rfl

theorem determine_pr_action_last_reviewed (pd : PrDetail) (existing : Option WorkflowItem)
    (req : List String) (rules : Option ApprovalRules) :
    (determine_pr_action pd existing req rules).last_reviewed_sha
      = resolveLastReviewedSha (evaluate_reviews pd.reviews req rules) pd.headRefOid
          (priorLastReviewedSha existing) := by
  unfold determine_pr_action
  dsimp only
  split_ifs <;> rfl

theorem update_iteration_needs_fix (existing : Option WorkflowItem) (a : Action) (m : Nat) :
    (update_iteration existing a m).2 = .NEEDS_FIX →
      a = .NEEDS_FIX ∧ (update_iteration existing a m).1 < m := by
  unfold update_iteration
  dsimp only
  split_ifs with h1 h2 <;> intro h
  · exact absurd h h1
  · exact absurd h (by simp)
  · exact ⟨not_not.mp h1, lt_of_not_ge h2⟩

theorem determine_pr_action_needs_fix (pd : PrDetail) (existing : Option WorkflowItem)
    (req : List String) (rules : Option ApprovalRules) :
    (determine_pr_action pd existing req rules).action = .NEEDS_FIX →
      (determine_pr_action pd existing req rules).status = .CHANGES_REQUESTED ∧
      sha_matches_review pd.headRefOid
        (determine_pr_action pd existing req rules).last_reviewed_sha = true := by
  unfold determine_pr_action
  dsimp only
  split_ifs with h1 h2 h3 h4 h5 h6 <;> intro h <;> simp_all

/-!  Claim theorems. -/

/-- C1: the spec (and the repository's own `TestChecksFailing` tests)
requires that a non-merged, conflict-free PR with `merge_state = UNSTABLE`
yields status `checks_failing` and action `needs_status_fix`.  The source's
`determine_pr_action` has no rule for `UNSTABLE` — its `Status` and
`Action` enums do not even contain those members — so on the failing input
from `test_checks_failing_no_reviews` it falls through to the default rule
and returns `(pending_review, needs_review)`. -/
theorem c1_unstable_checks_divergence :
    determine_pr_action
        ⟨some "OPEN", some "abc123", some "MERGEABLE", some "UNSTABLE", []⟩
        none ["code-snob", "architect"] none
      = ⟨.PENDING_REVIEW, .NEEDS_REVIEW, false, false, [], none⟩ := by
  decide

/-- C2: the claim (and the repository's regression test
`test_conflicts_without_approval_needs_resolution`, "PR #77 regression")
requires that a non-merged PR with conflicts gets action
`needs_conflict_resolution` regardless of approval.  On the test's exact
input — conflicting, no reviews, two required reviewers — the source
returns `(conflicting, none)` because the conflict branch emits
`needs_conflict_resolution` only when all required reviewers approved. -/
theorem c2_conflicts_without_approval_divergence :
    determine_pr_action
        ⟨some "OPEN", some "6f6f5f7aa565855ee475813248861fb03639a4c6",
          some "CONFLICTING", some "DIRTY", []⟩
        none ["code-snob", "architect"] none
      = ⟨.CONFLICTING, .NONE, false, false, [], none⟩ := by
  decide

/-- C3 (counterexample): the claim says `last_reviewed_sha` is never
`head_sha` unless the evaluator reports approved with
`latest_review_sha = head_sha`, and that with no decisive review it is the
prior item's value.  With an empty required-reviewer list and no reviews,
the evaluator reports approved with `latest_review_sha = none ≠ head_sha`
and the prior value is `none`, yet the code's `or`-chain falls back to
`head_sha`. -/
theorem c3_baseline_counterexample :
    (determine_pr_action ⟨some "OPEN", some "h1", none, none, []⟩ none [] none).last_reviewed_sha
        = some "h1"
      ∧ (evaluate_reviews [] [] none).latest_review_sha = none
      ∧ (evaluate_reviews [] [] none).all_required_approved = true
      ∧ priorLastReviewedSha none = none := by
  decide

/-- C3 (amended): in `determine_pr_action`, the resulting
`last_reviewed_sha` is `head_sha` when the evaluator reports approved with
`latest_review_sha` equal to `head_sha`; otherwise, when any changes are
requested or all required reviewers approved, it is the evaluator's
`latest_review_sha`, falling back (Python `or`) to the prior item's
`last_reviewed_sha` and then to `head_sha` when null/empty; otherwise it is
the prior item's `last_reviewed_sha` (possibly null). -/
theorem c3_baseline_resolution_amended (pd : PrDetail) (existing : Option WorkflowItem)
    (req : List String) (rules : Option ApprovalRules) :
    (determine_pr_action pd existing req rules).last_reviewed_sha =
      if (evaluate_reviews pd.reviews req rules).all_required_approved = true
          ∧ (evaluate_reviews pd.reviews req rules).latest_review_sha = pd.headRefOid then
        pd.headRefOid
      else if (evaluate_reviews pd.reviews req rules).any_changes_requested = true
          ∨ (evaluate_reviews pd.reviews req rules).all_required_approved = true then
        pyOr (evaluate_reviews pd.reviews req rules).latest_review_sha
          (pyOr (priorLastReviewedSha existing) pd.headRefOid)
      else priorLastReviewedSha existing := by
  rw [determine_pr_action_last_reviewed]
  unfold resolveLastReviewedSha
  simp only [Bool.and_eq_true, beq_iff_eq, Bool.or_eq_true]

/-- C4: whenever `determine_pr_action` followed by `update_iteration`
yields action `needs_fix`, the status is `changes_requested`, the head sha
matches the resolved reviewed sha (the `sha_matches_review` field written
by `sync_repo`), and the prior iteration is strictly below the cap. -/
theorem c4_needs_fix_invariant (pd : PrDetail) (existing : Option WorkflowItem)
    (req : List String) (rules : Option ApprovalRules) (m : Nat)
    (h : (update_iteration existing
        (determine_pr_action pd existing req rules).action m).2 = .NEEDS_FIX) :
    (determine_pr_action pd existing req rules).status = .CHANGES_REQUESTED ∧
    sha_matches_review pd.headRefOid
      (determine_pr_action pd existing req rules).last_reviewed_sha = true ∧
    (update_iteration existing
      (determine_pr_action pd existing req rules).action m).1 < m := by
  obtain ⟨ha, hlt⟩ := update_iteration_needs_fix existing _ m h
  obtain ⟨hs, hm⟩ := determine_pr_action_needs_fix pd existing req rules ha
  exact ⟨hs, hm, hlt⟩

/-- Witness for C4: a PR with a changes-requested review on the current
head and iteration 0 below the cap 5 reaches the `needs_fix` branch, and
the invariant holds there. -/
theorem c4_needs_fix_invariant_witness :
    (determine_pr_action
        ⟨some "OPEN", some "h", some "MERGEABLE", some "CLEAN",
          [⟨"a", "CHANGES_REQUESTED", "h", "t1"⟩]⟩
        none ["a"] none).status = .CHANGES_REQUESTED ∧
    sha_matches_review (some "h")
      (determine_pr_action
        ⟨some "OPEN", some "h", some "MERGEABLE", some "CLEAN",
          [⟨"a", "CHANGES_REQUESTED", "h", "t1"⟩]⟩
        none ["a"] none).last_reviewed_sha = true ∧
    (update_iteration none
      (determine_pr_action
        ⟨some "OPEN", some "h", some "MERGEABLE", some "CLEAN",
          [⟨"a", "CHANGES_REQUESTED", "h", "t1"⟩]⟩
        none ["a"] none).action 5).1 < 5 :=
  c4_needs_fix_invariant
    ⟨some "OPEN", some "h", some "MERGEABLE", some "CLEAN",
      [⟨"a", "CHANGES_REQUESTED", "h", "t1"⟩]⟩
    none ["a"] none 5 (by decide)

/-- C5: the claim quantifies over five action kinds including
`needs_status_fix`, and the repository's `TestStatusFixDedupe` tests
require `apply_dispatch_dedupe` to suppress it via a
`last_status_fix_dispatch_sha` marker.  In the source, no member of the
`Action` enum has value `"needs_status_fix"` (and `apply_dispatch_dedupe`
accepts no status-fix marker), so that part of the claim has no
counterpart in the code. -/
theorem c5_no_status_fix_action : ∀ a : Action, actionValue a ≠ "needs_status_fix" := by
  intro a
  cases a <;> decide

/-- C6: the claim (and the docstring of `mark_dispatched`: "Called by
workers after successful agent spawn") requires every successful spawn in
a scheduler pass to be followed by a `mark_dispatched` write.  The trace
of `review_open_prs` on a queue with one PR and one enabled reviewer
consists of the spawn alone — the function contains no `mark_dispatched`
call at all, so the review dedupe marker is never written. -/
theorem c6_review_pass_no_mark_dispatched :
    review_open_prs [⟨5, "miller46/jm-api", "test PR", "feature/x", "sha1"⟩]
        (fun _ => [⟨"miller46codesnob", none⟩])
      = [.spawnAgent "miller46/jm-api#5" "miller46codesnob"] := by
  decide

/-- C7 (counterexample): with two reviews by the same required reviewer
carrying the same `submittedAt`, the stable sort preserves input order, so
the later list element wins: swapping the two input reviews flips
`all_required_approved`, although the two inputs are permutations of each
other. -/
theorem c7_order_dependence_counterexample :
    (evaluate_reviews
        [⟨"a", "APPROVED", "s1", "t"⟩, ⟨"a", "CHANGES_REQUESTED", "s1", "t"⟩]
        ["a"] none).all_required_approved = false
    ∧ (evaluate_reviews
        [⟨"a", "CHANGES_REQUESTED", "s1", "t"⟩, ⟨"a", "APPROVED", "s1", "t"⟩]
        ["a"] none).all_required_approved = true
    ∧ ([⟨"a", "APPROVED", "s1", "t"⟩, ⟨"a", "CHANGES_REQUESTED", "s1", "t"⟩] : List Review).Perm
        [⟨"a", "CHANGES_REQUESTED", "s1", "t"⟩, ⟨"a", "APPROVED", "s1", "t"⟩] :=
  ⟨by decide, by decide, List.Perm.swap _ _ _⟩

/-- C7 (amended): `evaluate_reviews` is invariant under any permutation of
the input review list provided all `submittedAt` values are distinct, and
each required reviewer's recorded decision is the state of their latest
non-comment review in submission-time order. -/
theorem c7_latest_wins_amended :
    (∀ (l1 l2 : List Review) (required : List String) (rules : Option ApprovalRules),
        l1.Perm l2 → (l1.map Review.submittedAt).Nodup →
        evaluate_reviews l1 required rules = evaluate_reviews l2 required rules)
    ∧ (∀ (l : List Review) (required : List String) (rules : Option ApprovalRules)
        (a : String), a ∈ required →
        ((evaluate_reviews l required rules).latest_decision_by_reviewer).lookup a
          = (((sortReviews l).filter (decisiveBy a)).getLast?).elim none
              (fun r => some r.state)) :=
  ⟨fun l1 l2 required rules hp hnd =>
      evaluate_reviews_perm_of_nodup_times l1 l2 required rules hp hnd,
   fun l required rules a ha => evaluate_reviews_latest_wins l required rules a ha⟩

/-- Witness for C7 (amended): permutation invariance on two reviews with
distinct timestamps, and the latest-wins characterisation at reviewer
`"a"`. -/
theorem c7_latest_wins_amended_witness :
    evaluate_reviews
        [⟨"a", "CHANGES_REQUESTED", "s1", "t1"⟩, ⟨"a", "APPROVED", "s2", "t2"⟩] ["a"] none
      = evaluate_reviews
        [⟨"a", "APPROVED", "s2", "t2"⟩, ⟨"a", "CHANGES_REQUESTED", "s1", "t1"⟩] ["a"] none
    ∧ ((evaluate_reviews
        [⟨"a", "CHANGES_REQUESTED", "s1", "t1"⟩, ⟨"a", "APPROVED", "s2", "t2"⟩]
        ["a"] none).latest_decision_by_reviewer).lookup "a"
      = (((sortReviews
          [⟨"a", "CHANGES_REQUESTED", "s1", "t1"⟩, ⟨"a", "APPROVED", "s2", "t2"⟩]).filter
            (decisiveBy "a")).getLast?).elim none (fun r => some r.state) :=
  ⟨c7_latest_wins_amended.1 _ _ ["a"] none (List.Perm.swap _ _ _) (by decide),
   c7_latest_wins_amended.2 _ ["a"] none "a" (by decide)⟩

/-- C8: inserting (equivalently, removing) a review whose author is
outside the required-reviewer set anywhere in the input list changes
neither `all_required_approved` nor `any_changes_requested`. -/
theorem c8_noninterference (l1 l2 : List Review) (r : Review) (required : List String)
    (rules : Option ApprovalRules) (h : r.author ∉ required) :
    (evaluate_reviews (l1 ++ r :: l2) required rules).all_required_approved
        = (evaluate_reviews (l1 ++ l2) required rules).all_required_approved
    ∧ (evaluate_reviews (l1 ++ r :: l2) required rules).any_changes_requested
        = (evaluate_reviews (l1 ++ l2) required rules).any_changes_requested := by
  rw [evaluate_reviews_insert_irrelevant l1 l2 r required rules h]
  exact ⟨rfl, rfl⟩

/-- Witness for C8: an outsider's changes-requested review does not
disturb the evaluation of required reviewer `"b"`. -/
theorem c8_noninterference_witness :
    (evaluate_reviews
        ([] ++ ⟨"x", "CHANGES_REQUESTED", "s0", "t0"⟩ :: [⟨"b", "APPROVED", "s1", "t1"⟩])
        ["b"] none).all_required_approved
      = (evaluate_reviews ([] ++ [⟨"b", "APPROVED", "s1", "t1"⟩]) ["b"] none).all_required_approved
    ∧ (evaluate_reviews
        ([] ++ ⟨"x", "CHANGES_REQUESTED", "s0", "t0"⟩ :: [⟨"b", "APPROVED", "s1", "t1"⟩])
        ["b"] none).any_changes_requested
      = (evaluate_reviews ([] ++ [⟨"b", "APPROVED", "s1", "t1"⟩]) ["b"] none).any_changes_requested :=
  c8_noninterference [] [⟨"b", "APPROVED", "s1", "t1"⟩]
    ⟨"x", "CHANGES_REQUESTED", "s0", "t0"⟩ ["b"] none (by decide)

/-- C9 (counterexample): the needs_dev issue queue does not order by
`updated_at` first.  With issue A updated earlier but at lower composite
priority than issue B, the code's sort places B before A, while the
spec-claimed ordering (updated_at ascending first) places A before B. -/
theorem c9_issue_queue_order_counterexample :
    sortIssueQueue
        [⟨"r#issue#1", "r", 1, "a", 0, "2025-01-01"⟩, ⟨"r#issue#2", "r", 2, "b", 5, "2025-01-02"⟩]
      = [⟨"r#issue#2", "r", 2, "b", 5, "2025-01-02"⟩, ⟨"r#issue#1", "r", 1, "a", 0, "2025-01-01"⟩]
    ∧ sortIssueQueueSpec
        [⟨"r#issue#1", "r", 1, "a", 0, "2025-01-01"⟩, ⟨"r#issue#2", "r", 2, "b", 5, "2025-01-02"⟩]
      = [⟨"r#issue#1", "r", 1, "a", 0, "2025-01-01"⟩, ⟨"r#issue#2", "r", 2, "b", 5, "2025-01-02"⟩] := by
  constructor <;> decide

/-- C9 (amended): the PR queue projections return a permutation of the
eligible items sorted by `updated_at` ascending, then composite priority
(`base + repo priority`, carried in `_sortPriority`) descending, then
item id ascending; the needs_dev issue queue returns a permutation sorted
by composite priority descending then item id ascending only (its sort key
has no `updated_at` component). -/
theorem c9_queue_ordering_amended :
    (∀ l : List PrQueueItem, (sortPrQueue l).Perm l ∧ List.Sorted prQueueRel (sortPrQueue l))
    ∧ (∀ l : List IssueQueueItem,
        (sortIssueQueue l).Perm l ∧ List.Sorted issueQueueRel (sortIssueQueue l)) :=
  ⟨fun l => ⟨List.perm_insertionSort _ l, List.sorted_insertionSort _ l⟩,
   fun l => ⟨List.perm_insertionSort _ l, List.sorted_insertionSort _ l⟩⟩

/-- C10: with an empty required-reviewer list and no approval policy
carrying `min_approvals`, `evaluate_reviews` reports
`all_required_approved = true` even with zero reviews; and
`determine_pr_action` on an open, conflict-free PR with no reviews (and no
previously reviewed sha) then resolves `last_reviewed_sha` to the head sha
and returns `(approved, ready_to_merge)`. -/
theorem c10_empty_reviewers_auto_approve (st mg ms : Option String) (h : String)
    (rules : Option ApprovalRules) (existing : Option WorkflowItem)
    (hrules : ∀ ar, rules = some ar → ar.minApprovals = none)
    (hopen : casefoldEq st (some "MERGED") = false)
    (hmg : casefoldEq mg (some "CONFLICTING") = false)
    (hms : casefoldEq ms (some "DIRTY") = false)
    (hh : h ≠ "")
    (hprior : pyTruthy (priorLastReviewedSha existing) = false) :
    (evaluate_reviews [] [] rules).all_required_approved = true ∧
    determine_pr_action ⟨st, some h, mg, ms, []⟩ existing [] rules
      = ⟨.APPROVED, .READY_TO_MERGE, true, false, [], some h⟩ := by
  have hev : evaluate_reviews [] [] rules = ⟨true, false, none, []⟩ := by
    unfold evaluate_reviews reviewEvalState sortReviews
    match rules with
    | none => rfl
    | some ar =>
        have har : ar.minApprovals = none := hrules ar rfl
        simp [har]
  have hor : pyOr (priorLastReviewedSha existing) (some h) = some h := by
    unfold pyOr
    rw [hprior]
    simp
  have h1 : pyOr (none : Option String) (pyOr (priorLastReviewedSha existing) (some h))
      = some h := by
    rw [show pyOr (none : Option String) (pyOr (priorLastReviewedSha existing) (some h))
        = pyOr (priorLastReviewedSha existing) (some h) from rfl, hor]
  have hres : resolveLastReviewedSha ⟨true, false, none, []⟩ (some h)
      (priorLastReviewedSha existing) = some h := by
    unfold resolveLastReviewedSha
    rw [if_neg (by simp), if_pos (by simp)]
    exact h1
  have hsm : sha_matches_review (some h) (some h) = true := by
    unfold sha_matches_review pyTruthy
    simp [hh]
  have hconf : hasConflicts mg ms = false := by
    unfold hasConflicts
    rw [hmg, hms]
    rfl
  refine ⟨by rw [hev], ?_⟩
  unfold determine_pr_action
  dsimp only
  rw [hev]
  rw [if_neg (by simp [hopen]), if_neg (by simp [hconf])]
  simp [hres, hsm]

/-- Witness for C10: a concrete open, mergeable PR with head `"abc"`, no
reviews, no policy and no prior item is auto-approved and ready to merge. -/
theorem c10_empty_reviewers_auto_approve_witness :
    (evaluate_reviews [] [] none).all_required_approved = true ∧
    determine_pr_action ⟨some "OPEN", some "abc", some "MERGEABLE", some "CLEAN", []⟩ none [] none
      = ⟨.APPROVED, .READY_TO_MERGE, true, false, [], some "abc"⟩ :=
  c10_empty_reviewers_auto_approve (some "OPEN") (some "MERGEABLE") (some "CLEAN") "abc"
    none none (fun ar hc => by cases hc) (by decide) (by decide) (by decide)
    (by decide) (by decide)

end GithubSync

